import Mathlib

/-!
Shallow embedding of the change-detection core of github-repo-watcher
(`types.go`): the data model (`Repo`, `Branch`), the mirror lifecycle
function `openOrInitGitRepo`, and the per-poll function
`fetchAndLookForChanges`.

External collaborators (the go-git library, the filesystem, the
`git diff` subprocess, the environment) are modelled as explicit
environment records whose fields hold the results those collaborators
return during one call.  Effects (directory deletion, fetch invocation,
working-directory changes, published feed items) are recorded in explicit
state records.  A Go `panic` (out-of-range string/slice indexing) is a
distinguished outcome constructor, separate from returned errors.

The helper `filePathMatchPattern` and the diff-output parser live in
other files of the repository; the claims treated here only use them as
black boxes, so the embedding takes the path matcher as a function
parameter and lets the environment return the parsed diff records
directly (a `none` result models a failure of the `git diff`
subprocess, i.e. `cmd.Output()` returning an error).
-/

namespace RepoWatcher

/-- One record of `git diff --name-status` output: a change type letter
and the affected file path (`parseDiffOutput` element). -/
structure Diff where
  type : String
  file : String
deriving Repr, DecidableEq

/-- The `Branch` struct of types.go: branch name, last processed commit
(`Commit`, the watermark; empty string means never observed) and the
watched file patterns (`Files`; empty means watch everything). -/
structure Branch where
  name : String
  commit : String
  files : List String
deriving Repr, DecidableEq

/-- The `Repo` struct of types.go.  `gitRepoOpen` models whether the runtime
handle `r.gitRepo` is non-nil.  The branch map is modelled as a list
keyed by `Branch.name` (Go map keys are unique, so first-match lookup
agrees with map lookup). -/
structure Repo where
  name : String
  url : String
  branches : List Branch
  gitRepoOpen : Bool
deriving Repr, DecidableEq

/-- One reference reported by `gitRepo.References()`: its short name
(e.g. `"origin/main"`), its commit hash, and whether it is a remote
reference (`ref.IsRemote()`). -/
structure GitRef where
  name : String
  hash : String
  isRemote : Bool
deriving Repr, DecidableEq

/-- Models `strings.TrimPrefix(refName, "origin/")` as used by
`GetBranchIfTracked`: drop the leading `"origin/"` (7 characters) when
present, otherwise return the string unchanged. -/
def trimOriginName (s : String) : String :=
  if s.take 7 == "origin/" then s.drop 7 else s

/-- Models `(r *Repo) GetBranchIfTracked(refName)`: strip the `origin/` remote
qualifier and return the configured branch of that name, if any. -/
def getBranchIfTracked (branches : List Branch) (refName : String) : Option Branch :=
  let branchName := trimOriginName refName
  branches.find? (fun b => b.name == branchName)

/-- In Go the branch returned by `GetBranchIfTracked` is a pointer into
the map, and assigning `branch.Commit = ...` mutates that entry.  Here
the same mutation is the functional update of the first list entry with
the given (already trimmed) name. -/
def setBranchCommit (branches : List Branch) (branchName h : String) : List Branch :=
  match branches with
  | [] => []
  | b :: bs =>
    if b.name == branchName then { b with commit := h } :: bs
    else b :: setBranchCommit bs branchName h

/-- Models `(r *Repo) storageDir()`: `reposDir + "/" + r.Name` (the global
`reposDir` is defined outside types.go, so it is a parameter here). -/
def storageDir (reposDir name : String) : String :=
  reposDir ++ "/" ++ name

/-- Go string slicing `s[:n]`: defined when `n ≤ len(s)`, otherwise the
program panics.  Commit hashes are ASCII, so character count and byte
count agree. -/
def goSlice (s : String) (n : Nat) : Option String :=
  if n ≤ s.length then some (s.take n) else none

/-- Result of `r.fetch()` (which forwards the result of
`gitRepo.Fetch`): success, `git.NoErrAlreadyUpToDate`, or any other
error (including a URL-parse failure inside `fetch`). -/
inductive FetchResult
  | ok
  | alreadyUpToDate
  | err
deriving Repr, DecidableEq

/-- Environment for one `fetchAndLookForChanges` call: what the
collaborators return.  `refsResult = none` models `References()`
returning an error; `diffResult old new = none` models the
`git diff` subprocess (`cmd.Output()`) failing; `getwdOk = false`
models `os.Getwd()` failing. -/
structure PollEnv where
  fetchResult : FetchResult
  refsResult : Option (List GitRef)
  getwdOk : Bool
  diffResult : String → String → Option (List Diff)

/-- The distinct error returns of `fetchAndLookForChanges`. -/
inductive PollError
  | gitRepoNotOpened
  | fetchFailed
  | referencesFailed
  | getwdFailed
  | diffFailed
deriving Repr, DecidableEq

/-- A published feed entry, as handed to `newFeedItem(title,
description, link)`. -/
structure FeedItem where
  title : String
  description : String
  link : String
deriving Repr, DecidableEq

/-- Observable state threaded through one poll: the branch watermarks,
the process working directory, the feed items published so far, and
flags recording whether `r.fetch()` and the diff subprocess were
invoked. -/
structure PollState where
  branches : List Branch
  cwd : String
  feed : List FeedItem
  fetchCalled : Bool
  diffCalled : Bool
deriving Repr, DecidableEq

/-- Outcome of a poll (or of one reference callback): normal return,
error return, or a Go panic. -/
inductive PollResult
  | ok (st : PollState)
  | err (e : PollError) (st : PollState)
  | panic (st : PollState)
deriving Repr, DecidableEq

/-- The `description += string(diff.Type) + " - " + diff.File + "<br>"`
loop of types.go lines 228-230. -/
def diffLines (diffs : List Diff) : String :=
  diffs.foldl (fun acc d => acc ++ d.type ++ " - " ++ d.file ++ "<br>") ""

/-- The `report` computation of types.go lines 207-222.  The Go code
initializes `report := true`, enters the outer block only when
`branch.Files` is non-empty, resets `report = false`, and sets it back
to `true` when some pattern matches some diff file (`report` is never
reset once set, so the loop computes exactly this disjunction). -/
def computeReport (matchFn : String → String → Bool) (files : List String)
    (diffs : List Diff) : Bool :=
  if files.isEmpty then true
  else files.any (fun p => diffs.any (fun d => matchFn p d.file))

/-- The body of the `referencesIter.ForEach` callback of
`fetchAndLookForChanges` (types.go lines 172-240), for one reference. -/
def processRef (matchFn : String → String → Bool) (reposDir : String) (r : Repo)
    (env : PollEnv) (st : PollState) (ref : GitRef) : PollResult :=
  if !ref.isRemote then .ok st
  else
    match getBranchIfTracked st.branches ref.name with
    | none => .ok st
    | some branch =>
      if branch.commit != ref.hash then
        -- first observation: just save the reference (lines 185-188)
        if branch.commit == "" then
          .ok { st with
                branches := setBranchCommit st.branches (trimOriginName ref.name) ref.hash }
        else
          -- wd, err := os.Getwd() (lines 190-193)
          if !env.getwdOk then .err .getwdFailed st
          else
            let wd := st.cwd
            -- os.Chdir(r.storageDir()) (line 194)
            let st1 := { st with cwd := storageDir reposDir r.name, diffCalled := true }
            match env.diffResult branch.commit ref.hash with
            | none =>
              -- cmd.Output() failed: return err (lines 197-199).
              -- Note: os.Chdir(wd) at line 205 is NOT executed on this path.
              .err .diffFailed st1
            | some diffs =>
              -- os.Chdir(wd) (line 205)
              let st2 := { st1 with cwd := wd }
              let report := computeReport matchFn branch.files diffs
              if report then
                -- title and description build (lines 225-231):
                -- branch.Commit[:8] and ref.Hash().String()[:8] panic on
                -- identifiers shorter than 8.
                match goSlice branch.commit 8, goSlice ref.hash 8 with
                | some c8, some h8 =>
                  let title := r.name ++ " (" ++ c8 ++ " .. " ++ h8 ++ ")"
                  let description :=
                    "Changes in " ++ r.name ++ " (<a href=\"" ++ r.url ++ "\">" ++
                      r.url ++ "</a>)<br><br>" ++ "<b>" ++ branch.commit ++ "</b><br>" ++
                      diffLines diffs ++ "<b>" ++ ref.hash ++ "</b>"
                  .ok { st2 with
                        feed := st2.feed ++
                          [{ title := title, description := description, link := r.url }],
                        branches :=
                          setBranchCommit st2.branches (trimOriginName ref.name) ref.hash }
                | _, _ => .panic st2
              else
                .ok { st2 with
                      branches :=
                        setBranchCommit st2.branches (trimOriginName ref.name) ref.hash }
      else .ok st

/-- Models `referencesIter.ForEach`: process references in order, stopping at
the first callback error (go-git's `ForEach` returns that error) or
panic. -/
def pollRefs (matchFn : String → String → Bool) (reposDir : String) (r : Repo)
    (env : PollEnv) (st : PollState) : List GitRef → PollResult
  | [] => .ok st
  | ref :: rest =>
    match processRef matchFn reposDir r env st ref with
    | .ok st' => pollRefs matchFn reposDir r env st' rest
    | .err e st' => .err e st'
    | .panic st' => .panic st'

/-- Models `(r *Repo) fetchAndLookForChanges()` (types.go lines 149-243).
`cwd0` is the process working directory on entry. -/
def fetchAndLookForChanges (matchFn : String → String → Bool) (reposDir cwd0 : String)
    (r : Repo) (env : PollEnv) : PollResult :=
  let st0 : PollState :=
    { branches := r.branches, cwd := cwd0, feed := [], fetchCalled := false,
      diffCalled := false }
  -- if r.gitRepo == nil (lines 151-153)
  if !r.gitRepoOpen then .err .gitRepoNotOpened st0
  else
    -- err := r.fetch(); err != nil && err != git.NoErrAlreadyUpToDate (155-162)
    let st1 := { st0 with fetchCalled := true }
    match env.fetchResult with
    | .err => .err .fetchFailed st1
    | _ =>
      -- referencesIter, err := r.gitRepo.References() (167-170)
      match env.refsResult with
      | none => .err .referencesFailed st1
      | some refs => pollRefs matchFn reposDir r env st1 refs

/-- Result of `git.PlainOpen(r.storageDir())`: opened, the sentinel
`git.ErrRepositoryNotExists`, or any other error. -/
inductive OpenResult
  | opened
  | notExists
  | otherError
deriving Repr, DecidableEq

/-- Environment for one `openOrInitGitRepo` call.  `remotesResult`
holds the result of `gitRepo.Remotes()` as the list of remote URLs
(`none` models a `Remotes()` error); `initOk` models the success of
`git.PlainInit`; `fetchResult` is the result of the initial
`r.fetch()`; `refsResult` is the `References()` result on the
freshly-initialized path. -/
structure InitEnv where
  openResult : OpenResult
  remotesResult : Option (List String)
  initOk : Bool
  fetchResult : FetchResult
  refsResult : Option (List GitRef)
deriving Repr, DecidableEq

/-- The distinct error returns of `openOrInitGitRepo`.
`fetchAlreadyUpToDate` is `git.NoErrAlreadyUpToDate` escaping as an
error from line 106 (the initial-fetch path checks only `err != nil`). -/
inductive InitError
  | openFailed
  | remotesFailed
  | onlyOneRemoteExpected
  | urlMismatch
  | initFailed
  | fetchFailed
  | fetchAlreadyUpToDate
  | referencesFailed
deriving Repr, DecidableEq

/-- Observable state of one `openOrInitGitRepo` call: the branch
watermarks, and flags for `rmDir(r.storageDir())`, `git.PlainInit`,
`r.fetch()` and whether `r.gitRepo` ended up non-nil. -/
structure InitState where
  branches : List Branch
  rmDirCalled : Bool
  initCalled : Bool
  fetchCalled : Bool
  gitRepoOpen : Bool
deriving Repr, DecidableEq

/-- Outcome of `openOrInitGitRepo`: normal return, error return, or a
Go panic. -/
inductive InitResult
  | ok (st : InitState)
  | err (e : InitError) (st : InitState)
  | panic (st : InitState)
deriving Repr, DecidableEq

/-- The `referencesIter.ForEach` loop of types.go lines 119-128:
record the current hash of every tracked remote reference as that
branch's watermark. -/
def saveTrackedRefs (branches : List Branch) (refs : List GitRef) : List Branch :=
  refs.foldl
    (fun bs ref =>
      if ref.isRemote then
        match getBranchIfTracked bs ref.name with
        | some _ => setBranchCommit bs (trimOriginName ref.name) ref.hash
        | none => bs
      else bs)
    branches

/-- Models `(r *Repo) openOrInitGitRepo()` (types.go lines 56-132).

Control flow of the source: `git.PlainOpen` first; when it succeeds, a
one-pass validation loop checks the remotes (a `Remotes()` error, more
than one remote, or a URL mismatch each delete the directory and leave
a non-nil `err`; with zero remotes `remotes[0]` panics).  The following
`if err != nil` block re-initializes ONLY when `err` is exactly
`git.ErrRepositoryNotExists`; every other non-nil `err` — including the
validation errors just produced — is returned at line 110.  On the
fresh-init path the `CreateRemote` error is overwritten by the fetch
result (lines 100 and 104), and any non-nil fetch result, including
`git.NoErrAlreadyUpToDate`, is returned at line 106. -/
def openOrInitGitRepo (r : Repo) (env : InitEnv) : InitResult :=
  let st0 : InitState :=
    { branches := r.branches, rmDirCalled := false, initCalled := false,
      fetchCalled := false, gitRepoOpen := false }
  match env.openResult with
  | .opened =>
    let st1 := { st0 with gitRepoOpen := true }
    match env.remotesResult with
    | none =>
      -- remotes, err = r.gitRepo.Remotes(); err != nil (lines 66-71)
      .err .remotesFailed { st1 with rmDirCalled := true }
    | some remotes =>
      if remotes.length > 1 then
        -- len(remotes) > 1 (lines 74-78)
        .err .onlyOneRemoteExpected { st1 with rmDirCalled := true }
      else
        match remotes with
        | [] =>
          -- remotes[0] with an empty slice: index out of range (line 80)
          .panic st1
        | u :: _ =>
          if r.url != u then
            -- URL mismatch (lines 80-85)
            .err .urlMismatch { st1 with rmDirCalled := true }
          else
            -- validation passed: err == nil, the init block is skipped
            -- and the function returns nil (line 131)
            .ok st1
  | .otherError =>
    -- PlainOpen failed with something other than ErrRepositoryNotExists:
    -- not the init case, so err is returned at line 110
    .err .openFailed st0
  | .notExists =>
    -- err == git.ErrRepositoryNotExists (lines 92-108)
    if !env.initOk then .err .initFailed { st0 with initCalled := true }
    else
      -- CreateRemote's error is captured at line 100 but overwritten by
      -- the fetch at line 104 before it is ever checked
      let st1 := { st0 with initCalled := true, gitRepoOpen := true, fetchCalled := true }
      match env.fetchResult with
      | .err => .err .fetchFailed st1
      | .alreadyUpToDate =>
        -- err = r.fetch(); if err != nil { return err } (lines 104-107):
        -- NoErrAlreadyUpToDate is non-nil here and is propagated
        .err .fetchAlreadyUpToDate st1
      | .ok =>
        match env.refsResult with
        | none => .err .referencesFailed st1
        | some refs => .ok { st1 with branches := saveTrackedRefs st1.branches refs }

/-- The watermark (`Commit` field) the configuration stores for the
branch tracked under `refName`, if that reference is tracked. -/
def watermarkOf (bs : List Branch) (refName : String) : Option String :=
  (getBranchIfTracked bs refName).map (fun b => b.commit)

/-- Feed items published by a poll, on any outcome. -/
def feedOf : PollResult → List FeedItem
  | .ok st => st.feed
  | .err _ st => st.feed
  | .panic st => st.feed

theorem find_setBranchCommit_self (bs : List Branch) (n h : String) :
    (setBranchCommit bs n h).find? (fun b => b.name == n) =
      (bs.find? (fun b => b.name == n)).map (fun b => { b with commit := h }) := by
  induction bs with
  | nil => rfl
  | cons b bs ih =>
    by_cases hb : b.name = n
    · simp [setBranchCommit, hb]
    · simp [setBranchCommit, hb, ih]

theorem find_setBranchCommit_ne (bs : List Branch) (n m h : String) (hne : m ≠ n) :
    (setBranchCommit bs n h).find? (fun b => b.name == m) =
      bs.find? (fun b => b.name == m) := by
  induction bs with
  | nil => rfl
  | cons b bs ih =>
    have hnm : ¬ (n = m) := fun hc => hne hc.symm
    by_cases hb : b.name = n
    · simp [setBranchCommit, hb, hnm]
    · by_cases hm : b.name = m
      · simp [setBranchCommit, hb, hm, hne]
      · simp [setBranchCommit, hb, hm, ih]

theorem getBranchIfTracked_set_self (bs : List Branch) (rn h : String) :
    getBranchIfTracked (setBranchCommit bs (trimOriginName rn) h) rn =
      (getBranchIfTracked bs rn).map (fun b => { b with commit := h }) := by
  simp [getBranchIfTracked, find_setBranchCommit_self]

theorem getBranchIfTracked_set_ne (bs : List Branch) (n h rn : String)
    (hne : trimOriginName rn ≠ n) :
    getBranchIfTracked (setBranchCommit bs n h) rn = getBranchIfTracked bs rn := by
  simp [getBranchIfTracked, find_setBranchCommit_ne _ _ _ _ hne]

/-- Claim C9: calling `fetchAndLookForChanges` when the runtime mirror
handle is nil (`r.gitRepo == nil`) returns an error immediately: the
fetch is not invoked, no diff is computed, no branch watermark is
touched and nothing is published. -/
theorem c9_nil_gitRepo_errors_immediately (matchFn : String → String → Bool)
    (reposDir cwd0 : String) (r : Repo) (env : PollEnv)
    (h : r.gitRepoOpen = false) :
    fetchAndLookForChanges matchFn reposDir cwd0 r env =
      .err .gitRepoNotOpened
        { branches := r.branches, cwd := cwd0, feed := [], fetchCalled := false,
          diffCalled := false } := by
  simp [fetchAndLookForChanges, h]

theorem c9_nil_gitRepo_witness :
    ((⟨"demo", "u", [⟨"main", "aaaa1111", []⟩], false⟩ : Repo).gitRepoOpen = false) ∧
    fetchAndLookForChanges (fun _ _ => false) "/repos" "/w"
        ⟨"demo", "u", [⟨"main", "aaaa1111", []⟩], false⟩
        ⟨.ok, some [⟨"origin/main", "bbbb2222", true⟩], true, fun _ _ => none⟩ =
      .err .gitRepoNotOpened ⟨[⟨"main", "aaaa1111", []⟩], "/w", [], false, false⟩ :=
  ⟨rfl, c9_nil_gitRepo_errors_immediately _ _ _ _ _ rfl⟩

/-- Claim C5: when a tracked branch's watermark is the empty string
(never observed), observing a remote ref for it sets the watermark to
the observed commit, publishes nothing and runs no diff computation. -/
theorem c5_first_seen_sets_watermark (matchFn : String → String → Bool)
    (reposDir cwd0 : String) (r : Repo) (env : PollEnv) (ref : GitRef) (b : Branch)
    (hopen : r.gitRepoOpen = true)
    (hfetch : env.fetchResult ≠ .err)
    (hrefs : env.refsResult = some [ref])
    (hremote : ref.isRemote = true)
    (hlook : getBranchIfTracked r.branches ref.name = some b)
    (hempty : b.commit = "")
    (hne : ref.hash ≠ "") :
    fetchAndLookForChanges matchFn reposDir cwd0 r env =
      .ok { branches := setBranchCommit r.branches (trimOriginName ref.name) ref.hash,
            cwd := cwd0, feed := [], fetchCalled := true, diffCalled := false } ∧
    watermarkOf (setBranchCommit r.branches (trimOriginName ref.name) ref.hash) ref.name =
      some ref.hash := by
  constructor
  · have hne' : ¬ ("" = ref.hash) := fun hc => hne hc.symm
    cases hf : env.fetchResult with
    | err => exact absurd hf hfetch
    | ok =>
      simp [fetchAndLookForChanges, hopen, hf, hrefs, pollRefs, processRef, hremote,
        hlook, hempty, hne']
    | alreadyUpToDate =>
      simp [fetchAndLookForChanges, hopen, hf, hrefs, pollRefs, processRef, hremote,
        hlook, hempty, hne']
  · simp [watermarkOf, getBranchIfTracked_set_self, hlook]

theorem c5_first_seen_witness :
    getBranchIfTracked [⟨"main", "", []⟩] "origin/main" = some ⟨"main", "", []⟩ ∧
    fetchAndLookForChanges (fun _ _ => false) "/repos" "/w"
        ⟨"demo", "u", [⟨"main", "", []⟩], true⟩
        ⟨.ok, some [⟨"origin/main", "bbbb2222", true⟩], true, fun _ _ => none⟩ =
      .ok ⟨[⟨"main", "bbbb2222", []⟩], "/w", [], true, false⟩ := by
  refine ⟨by decide, ?_⟩
  have h := (c5_first_seen_sets_watermark (fun _ _ => false) "/repos" "/w"
    ⟨"demo", "u", [⟨"main", "", []⟩], true⟩
    ⟨.ok, some [⟨"origin/main", "bbbb2222", true⟩], true, fun _ _ => none⟩
    ⟨"origin/main", "bbbb2222", true⟩ ⟨"main", "", []⟩
    rfl (by decide) rfl rfl (by decide) rfl (by decide)).1
  simpa using h

/-- Claim C2: when a tracked branch has watermark `A`, the observed
remote ref carries a different commit `B`, and the diff subprocess
between `A` and `B` fails, `fetchAndLookForChanges` returns the error,
publishes nothing, and leaves every branch watermark — in particular
this branch's, still `A` — unchanged, so the comparison is retried on
the next poll. -/
theorem c2_diff_error_keeps_watermark (matchFn : String → String → Bool)
    (reposDir cwd0 : String) (r : Repo) (env : PollEnv) (ref : GitRef)
    (rest : List GitRef) (b : Branch)
    (hopen : r.gitRepoOpen = true)
    (hfetch : env.fetchResult ≠ .err)
    (hrefs : env.refsResult = some (ref :: rest))
    (hremote : ref.isRemote = true)
    (hlook : getBranchIfTracked r.branches ref.name = some b)
    (hne : b.commit ≠ ref.hash)
    (hnemp : b.commit ≠ "")
    (hwd : env.getwdOk = true)
    (hdiff : env.diffResult b.commit ref.hash = none) :
    fetchAndLookForChanges matchFn reposDir cwd0 r env =
      .err .diffFailed
        { branches := r.branches, cwd := storageDir reposDir r.name, feed := [],
          fetchCalled := true, diffCalled := true } ∧
    watermarkOf r.branches ref.name = some b.commit := by
  constructor
  · have hbne : (b.commit != ref.hash) = true := by simp [bne_iff_ne, hne]
    have hbem : (b.commit == "") = false := by simp [hnemp]
    cases hf : env.fetchResult with
    | err => exact absurd hf hfetch
    | ok =>
      simp [fetchAndLookForChanges, hopen, hf, hrefs, pollRefs, processRef, hremote,
        hlook, hbne, hbem, hwd, hdiff]
    | alreadyUpToDate =>
      simp [fetchAndLookForChanges, hopen, hf, hrefs, pollRefs, processRef, hremote,
        hlook, hbne, hbem, hwd, hdiff]
  · simp [watermarkOf, hlook]

theorem c2_diff_error_witness :
    getBranchIfTracked [⟨"main", "aaaa1111", []⟩] "origin/main" =
      some ⟨"main", "aaaa1111", []⟩ ∧
    fetchAndLookForChanges (fun _ _ => false) "/repos" "/w"
        ⟨"demo", "u", [⟨"main", "aaaa1111", []⟩], true⟩
        ⟨.ok, some [⟨"origin/main", "bbbb2222", true⟩], true, fun _ _ => none⟩ =
      .err .diffFailed ⟨[⟨"main", "aaaa1111", []⟩], "/repos/demo", [], true, true⟩ ∧
    watermarkOf [⟨"main", "aaaa1111", []⟩] "origin/main" = some "aaaa1111" := by
  refine ⟨by decide, ?_, by decide⟩
  have h := (c2_diff_error_keeps_watermark (fun _ _ => false) "/repos" "/w"
    ⟨"demo", "u", [⟨"main", "aaaa1111", []⟩], true⟩
    ⟨.ok, some [⟨"origin/main", "bbbb2222", true⟩], true, fun _ _ => none⟩
    ⟨"origin/main", "bbbb2222", true⟩ [] ⟨"main", "aaaa1111", []⟩
    rfl (by decide) rfl rfl (by decide) (by decide) (by decide) rfl rfl).1
  simpa using h

/-- Claim C6: the notification decision is a whole-branch filter:
report when the branch's interest-pattern list is empty, otherwise
report exactly when at least one pattern matches at least one changed
path.  The published feed grows (by one item) exactly when that
decision is positive. -/
theorem c6_whole_branch_filter (matchFn : String → String → Bool)
    (reposDir : String) (r : Repo) (env : PollEnv) (st : PollState)
    (ref : GitRef) (b : Branch) (diffs : List Diff)
    (hremote : ref.isRemote = true)
    (hlook : getBranchIfTracked st.branches ref.name = some b)
    (hne : b.commit ≠ ref.hash)
    (hnemp : b.commit ≠ "")
    (hwd : env.getwdOk = true)
    (hdiff : env.diffResult b.commit ref.hash = some diffs)
    (hlen : 8 ≤ b.commit.length) (hlen2 : 8 ≤ ref.hash.length) :
    (∃ st', processRef matchFn reposDir r env st ref = .ok st' ∧
       (st'.feed ≠ st.feed ↔ computeReport matchFn b.files diffs = true)) ∧
    (computeReport matchFn b.files diffs = true ↔
       b.files = [] ∨ ∃ p ∈ b.files, ∃ d ∈ diffs, matchFn p d.file = true) := by
  have hiff : computeReport matchFn b.files diffs = true ↔
      b.files = [] ∨ ∃ p ∈ b.files, ∃ d ∈ diffs, matchFn p d.file = true := by
    by_cases hf : b.files = []
    · simp [computeReport, hf]
    · simp [computeReport, hf, List.any_eq_true]
  refine ⟨?_, hiff⟩
  have hbne : (b.commit != ref.hash) = true := by simp [bne_iff_ne, hne]
  have hbem : (b.commit == "") = false := by simp [hnemp]
  have hg1 : goSlice b.commit 8 = some (b.commit.take 8) := by simp [goSlice, hlen]
  have hg2 : goSlice ref.hash 8 = some (ref.hash.take 8) := by simp [goSlice, hlen2]
  cases hrep : computeReport matchFn b.files diffs with
  | true =>
    refine ⟨{ st with
              diffCalled := true,
              feed := st.feed ++
                [{ title := r.name ++ " (" ++ b.commit.take 8 ++ " .. " ++
                     ref.hash.take 8 ++ ")",
                   description := "Changes in " ++ r.name ++ " (<a href=\"" ++ r.url ++
                     "\">" ++ r.url ++ "</a>)<br><br>" ++ "<b>" ++ b.commit ++
                     "</b><br>" ++ diffLines diffs ++ "<b>" ++ ref.hash ++ "</b>",
                   link := r.url }],
              branches := setBranchCommit st.branches (trimOriginName ref.name) ref.hash },
           ?_, ?_⟩
    · simp [processRef, hremote, hlook, hbne, hbem, hwd, hdiff, hrep, hg1, hg2]
    · simp [hrep]
  | false =>
    refine ⟨{ st with
              diffCalled := true,
              branches := setBranchCommit st.branches (trimOriginName ref.name) ref.hash },
           ?_, ?_⟩
    · simp [processRef, hremote, hlook, hbne, hbem, hwd, hdiff, hrep]
    · simp [hrep]

theorem c6_whole_branch_filter_witness :
    getBranchIfTracked [⟨"main", "aaaa1111", ["docs"]⟩] "origin/main" =
      some ⟨"main", "aaaa1111", ["docs"]⟩ ∧
    (∃ st', processRef (fun pat f => pat == f) "/repos"
        ⟨"demo", "u", [⟨"main", "aaaa1111", ["docs"]⟩], true⟩
        ⟨.ok, some [], true, fun _ _ => some [⟨"M", "src/app.go"⟩]⟩
        ⟨[⟨"main", "aaaa1111", ["docs"]⟩], "/w", [], true, false⟩
        ⟨"origin/main", "bbbb2222", true⟩ = .ok st' ∧
      (st'.feed ≠ [] ↔
        computeReport (fun pat f => pat == f) ["docs"] [⟨"M", "src/app.go"⟩] = true)) ∧
    (computeReport (fun pat f => pat == f) ["docs"] [⟨"M", "src/app.go"⟩] = true ↔
      ["docs"] = ([] : List String) ∨
        ∃ p ∈ ["docs"], ∃ d ∈ [(⟨"M", "src/app.go"⟩ : Diff)], (p == d.file) = true) := by
  refine ⟨by decide, ?_⟩
  exact c6_whole_branch_filter (fun pat f => pat == f) "/repos"
    ⟨"demo", "u", [⟨"main", "aaaa1111", ["docs"]⟩], true⟩
    ⟨.ok, some [], true, fun _ _ => some [⟨"M", "src/app.go"⟩]⟩
    ⟨[⟨"main", "aaaa1111", ["docs"]⟩], "/w", [], true, false⟩
    ⟨"origin/main", "bbbb2222", true⟩ ⟨"main", "aaaa1111", ["docs"]⟩
    [⟨"M", "src/app.go"⟩]
    rfl (by decide) (by decide) (by decide) rfl rfl (by decide) (by decide)

/-- Claim C7: a published notification's title is exactly the
repository name, `" ("`, the first 8 characters of the old commit,
`" .. "`, the first 8 characters of the new commit, and `")"`. -/
theorem c7_notification_title (matchFn : String → String → Bool)
    (reposDir : String) (r : Repo) (env : PollEnv) (st : PollState)
    (ref : GitRef) (b : Branch) (diffs : List Diff)
    (hremote : ref.isRemote = true)
    (hlook : getBranchIfTracked st.branches ref.name = some b)
    (hne : b.commit ≠ ref.hash)
    (hnemp : b.commit ≠ "")
    (hwd : env.getwdOk = true)
    (hdiff : env.diffResult b.commit ref.hash = some diffs)
    (hlen : 8 ≤ b.commit.length) (hlen2 : 8 ≤ ref.hash.length)
    (hrep : computeReport matchFn b.files diffs = true) :
    processRef matchFn reposDir r env st ref =
      .ok { st with
            diffCalled := true,
            feed := st.feed ++
              [{ title := r.name ++ " (" ++ b.commit.take 8 ++ " .. " ++
                   ref.hash.take 8 ++ ")",
                 description := "Changes in " ++ r.name ++ " (<a href=\"" ++ r.url ++
                   "\">" ++ r.url ++ "</a>)<br><br>" ++ "<b>" ++ b.commit ++
                   "</b><br>" ++ diffLines diffs ++ "<b>" ++ ref.hash ++ "</b>",
                 link := r.url }],
            branches := setBranchCommit st.branches (trimOriginName ref.name) ref.hash } := by
  have hbne : (b.commit != ref.hash) = true := by simp [bne_iff_ne, hne]
  have hbem : (b.commit == "") = false := by simp [hnemp]
  have hg1 : goSlice b.commit 8 = some (b.commit.take 8) := by simp [goSlice, hlen]
  have hg2 : goSlice ref.hash 8 = some (ref.hash.take 8) := by simp [goSlice, hlen2]
  simp [processRef, hremote, hlook, hbne, hbem, hwd, hdiff, hrep, hg1, hg2]

theorem c7_notification_title_witness :
    computeReport (fun _ _ => true) [] [⟨"M", "src/app.go"⟩] = true ∧
    processRef (fun _ _ => true) "/repos"
        ⟨"demo", "u", [⟨"main", "aaaa1111", []⟩], true⟩
        ⟨.ok, some [], true, fun _ _ => some [⟨"M", "src/app.go"⟩]⟩
        ⟨[⟨"main", "aaaa1111", []⟩], "/w", [], true, false⟩
        ⟨"origin/main", "bbbb2222", true⟩ =
      .ok ⟨[⟨"main", "bbbb2222", []⟩], "/w",
           [⟨"demo (aaaa1111 .. bbbb2222)",
             "Changes in demo (<a href=\"u\">u</a>)<br><br><b>aaaa1111</b><br>M - src/app.go<br><b>bbbb2222</b>",
             "u"⟩],
           true, true⟩ := by
  refine ⟨by decide, ?_⟩
  have h := c7_notification_title (fun _ _ => true) "/repos"
    ⟨"demo", "u", [⟨"main", "aaaa1111", []⟩], true⟩
    ⟨.ok, some [], true, fun _ _ => some [⟨"M", "src/app.go"⟩]⟩
    ⟨[⟨"main", "aaaa1111", []⟩], "/w", [], true, false⟩
    ⟨"origin/main", "bbbb2222", true⟩ ⟨"main", "aaaa1111", []⟩
    [⟨"M", "src/app.go"⟩]
    rfl (by decide) (by decide) (by decide) rfl rfl (by decide) (by decide) (by decide)
  rw [h]
  decide

/-- Claim C10: the title build slices the first 8 characters of both
commit identifiers, so the change-reporting path is panic-free exactly
when both are at least 8 characters long; with a non-empty stored
watermark shorter than 8 characters the path aborts (Go panic) and
publishes nothing. -/
theorem c10_short_watermark_panics (matchFn : String → String → Bool)
    (reposDir : String) (r : Repo) (env : PollEnv) (st : PollState)
    (ref : GitRef) (b : Branch) (diffs : List Diff)
    (hremote : ref.isRemote = true)
    (hlook : getBranchIfTracked st.branches ref.name = some b)
    (hne : b.commit ≠ ref.hash)
    (hnemp : b.commit ≠ "")
    (hwd : env.getwdOk = true)
    (hdiff : env.diffResult b.commit ref.hash = some diffs)
    (hrep : computeReport matchFn b.files diffs = true) :
    (8 ≤ b.commit.length → 8 ≤ ref.hash.length →
       ∃ st', processRef matchFn reposDir r env st ref = .ok st' ∧
         st'.feed.length = st.feed.length + 1) ∧
    (b.commit.length < 8 →
       processRef matchFn reposDir r env st ref = .panic { st with diffCalled := true } ∧
       ({ st with diffCalled := true } : PollState).feed = st.feed) := by
  have hbne : (b.commit != ref.hash) = true := by simp [bne_iff_ne, hne]
  have hbem : (b.commit == "") = false := by simp [hnemp]
  constructor
  · intro hlen hlen2
    have hg1 : goSlice b.commit 8 = some (b.commit.take 8) := by simp [goSlice, hlen]
    have hg2 : goSlice ref.hash 8 = some (ref.hash.take 8) := by simp [goSlice, hlen2]
    refine ⟨{ st with
              diffCalled := true,
              feed := st.feed ++
                [{ title := r.name ++ " (" ++ b.commit.take 8 ++ " .. " ++
                     ref.hash.take 8 ++ ")",
                   description := "Changes in " ++ r.name ++ " (<a href=\"" ++ r.url ++
                     "\">" ++ r.url ++ "</a>)<br><br>" ++ "<b>" ++ b.commit ++
                     "</b><br>" ++ diffLines diffs ++ "<b>" ++ ref.hash ++ "</b>",
                   link := r.url }],
              branches := setBranchCommit st.branches (trimOriginName ref.name) ref.hash },
           ?_, ?_⟩
    · simp [processRef, hremote, hlook, hbne, hbem, hwd, hdiff, hrep, hg1, hg2]
    · simp
  · intro hshort
    have hg1 : goSlice b.commit 8 = none := by
      simp [goSlice]
      omega
    refine ⟨?_, rfl⟩
    simp [processRef, hremote, hlook, hbne, hbem, hwd, hdiff, hrep, hg1]

theorem c10_short_watermark_witness :
    ("abc1" : String).length < 8 ∧
    processRef (fun _ _ => true) "/repos"
        ⟨"demo", "u", [⟨"main", "abc1", []⟩], true⟩
        ⟨.ok, some [], true, fun _ _ => some [⟨"M", "src/app.go"⟩]⟩
        ⟨[⟨"main", "abc1", []⟩], "/w", [], true, false⟩
        ⟨"origin/main", "bbbb2222", true⟩ =
      .panic ⟨[⟨"main", "abc1", []⟩], "/w", [], true, true⟩ := by
  refine ⟨by decide, ?_⟩
  have h := (c10_short_watermark_panics (fun _ _ => true) "/repos"
    ⟨"demo", "u", [⟨"main", "abc1", []⟩], true⟩
    ⟨.ok, some [], true, fun _ _ => some [⟨"M", "src/app.go"⟩]⟩
    ⟨[⟨"main", "abc1", []⟩], "/w", [], true, false⟩
    ⟨"origin/main", "bbbb2222", true⟩ ⟨"main", "abc1", []⟩
    [⟨"M", "src/app.go"⟩]
    rfl (by decide) (by decide) (by decide) rfl rfl (by decide)).2 (by decide)
  exact h.1

/-- When one reference callback returns normally, either the branch
list is untouched (and, for a remote ref, any tracked branch for this
ref already stored the observed commit), or it is exactly the watermark
update of this ref's branch — and the latter only happens for remote
refs. -/
theorem processRef_ok_branches (matchFn : String → String → Bool) (reposDir : String)
    (r : Repo) (env : PollEnv) (st : PollState) (ref : GitRef) (st' : PollState)
    (h : processRef matchFn reposDir r env st ref = .ok st') :
    (st'.branches = st.branches ∧
       (ref.isRemote = true →
         ∀ b, getBranchIfTracked st.branches ref.name = some b → b.commit = ref.hash)) ∨
    (st'.branches = setBranchCommit st.branches (trimOriginName ref.name) ref.hash ∧
       ref.isRemote = true) := by
  cases hrem : ref.isRemote with
  | false =>
    simp [processRef, hrem] at h
    subst h
    exact Or.inl ⟨rfl, by simp⟩
  | true =>
    cases hlook : getBranchIfTracked st.branches ref.name with
    | none =>
      simp [processRef, hrem, hlook] at h
      subst h
      exact Or.inl ⟨rfl, by simp [hlook]⟩
    | some b =>
      by_cases hbeq : b.commit = ref.hash
      · have hbne : (b.commit != ref.hash) = false := by simp [hbeq]
        simp [processRef, hrem, hlook, hbne] at h
        subst h
        refine Or.inl ⟨rfl, ?_⟩
        intro _ b' hb'
        cases hb'
        exact hbeq
      · have hbne : (b.commit != ref.hash) = true := by simp [bne_iff_ne, hbeq]
        by_cases hbem : b.commit = ""
        · have hbem' : (b.commit == "") = true := by simp [hbem]
          simp [processRef, hrem, hlook, hbne, hbem'] at h
          subst h
          exact Or.inr ⟨rfl, rfl⟩
        · have hbem' : (b.commit == "") = false := by simp [hbem]
          cases hwd : env.getwdOk with
          | false => simp [processRef, hrem, hlook, hbne, hbem', hwd] at h
          | true =>
            cases hdiff : env.diffResult b.commit ref.hash with
            | none => simp [processRef, hrem, hlook, hbne, hbem', hwd, hdiff] at h
            | some diffs =>
              cases hrep : computeReport matchFn b.files diffs with
              | false =>
                simp [processRef, hrem, hlook, hbne, hbem', hwd, hdiff, hrep] at h
                subst h
                exact Or.inr ⟨rfl, rfl⟩
              | true =>
                cases hg1 : goSlice b.commit 8 with
                | none => simp [processRef, hrem, hlook, hbne, hbem', hwd, hdiff, hrep, hg1] at h
                | some c8 =>
                  cases hg2 : goSlice ref.hash 8 with
                  | none =>
                    simp [processRef, hrem, hlook, hbne, hbem', hwd, hdiff, hrep, hg1, hg2] at h
                  | some h8 =>
                    simp [processRef, hrem, hlook, hbne, hbem', hwd, hdiff, hrep, hg1, hg2] at h
                    subst h
                    exact Or.inr ⟨rfl, rfl⟩

/-- After a normal callback return for a remote ref, any branch tracked
under this ref's name stores the observed commit. -/
theorem processRef_ok_watermark (matchFn : String → String → Bool) (reposDir : String)
    (r : Repo) (env : PollEnv) (st : PollState) (ref : GitRef) (st' : PollState)
    (h : processRef matchFn reposDir r env st ref = .ok st')
    (hrem : ref.isRemote = true) :
    ∀ b, getBranchIfTracked st'.branches ref.name = some b → b.commit = ref.hash := by
  intro b hb
  rcases processRef_ok_branches matchFn reposDir r env st ref st' h with ⟨hbr, himp⟩ | ⟨hbr, _⟩
  · exact himp hrem b (hbr ▸ hb)
  · rw [hbr, getBranchIfTracked_set_self] at hb
    cases hlook : getBranchIfTracked st.branches ref.name with
    | none => rw [hlook] at hb; cases hb
    | some b0 => rw [hlook] at hb; cases hb; rfl

/-- A normal callback return never changes the lookup result for a
reference name whose trimmed branch name differs from the processed
ref's (when the processed ref is remote; non-remote refs change
nothing). -/
theorem processRef_ok_preserves (matchFn : String → String → Bool) (reposDir : String)
    (r : Repo) (env : PollEnv) (st : PollState) (ref : GitRef) (st' : PollState)
    (rn : String)
    (h : processRef matchFn reposDir r env st ref = .ok st')
    (hcase : ref.isRemote = true → trimOriginName rn ≠ trimOriginName ref.name) :
    getBranchIfTracked st'.branches rn = getBranchIfTracked st.branches rn := by
  rcases processRef_ok_branches matchFn reposDir r env st ref st' h with ⟨hbr, _⟩ | ⟨hbr, hrem⟩
  · rw [hbr]
  · rw [hbr, getBranchIfTracked_set_ne _ _ _ _ (hcase hrem)]

/-- The sweep `pollRefs` preserves the lookup result for a name no processed
remote ref resolves to. -/
theorem pollRefs_ok_preserves (matchFn : String → String → Bool) (reposDir : String)
    (r : Repo) (env : PollEnv) (refs : List GitRef) (st st' : PollState) (rn : String)
    (h : pollRefs matchFn reposDir r env st refs = .ok st')
    (hall : ∀ ref ∈ refs, ref.isRemote = true →
      trimOriginName rn ≠ trimOriginName ref.name) :
    getBranchIfTracked st'.branches rn = getBranchIfTracked st.branches rn := by
  induction refs generalizing st with
  | nil =>
    simp [pollRefs] at h
    rw [h]
  | cons ref rest ih =>
    cases hp : processRef matchFn reposDir r env st ref with
    | ok stm =>
      have hrest : pollRefs matchFn reposDir r env stm rest = .ok st' := by
        simpa [pollRefs, hp] using h
      have h1 := processRef_ok_preserves matchFn reposDir r env st ref stm rn hp
        (hall ref (List.mem_cons_self _ _))
      have h2 := ih stm hrest (fun ref' hm => hall ref' (List.mem_cons_of_mem _ hm))
      rw [h2, h1]
    | err e stm => simp [pollRefs, hp] at h
    | panic stm => simp [pollRefs, hp] at h

/-- After a fully successful reference sweep whose remote refs resolve
to pairwise distinct branch names, every tracked remote ref's branch
stores exactly the observed commit. -/
theorem pollRefs_ok_watermarks (matchFn : String → String → Bool) (reposDir : String)
    (r : Repo) (env : PollEnv) (refs : List GitRef) (st st' : PollState)
    (h : pollRefs matchFn reposDir r env st refs = .ok st')
    (hdis : refs.Pairwise (fun a c => a.isRemote = true → c.isRemote = true →
      trimOriginName a.name ≠ trimOriginName c.name)) :
    ∀ ref ∈ refs, ref.isRemote = true →
      ∀ b, getBranchIfTracked st'.branches ref.name = some b → b.commit = ref.hash := by
  induction refs generalizing st with
  | nil => intro ref hm; cases hm
  | cons ref0 rest ih =>
    intro ref hm hrem b hb
    cases hp : processRef matchFn reposDir r env st ref0 with
    | ok stm =>
      have hrest : pollRefs matchFn reposDir r env stm rest = .ok st' := by
        simpa [pollRefs, hp] using h
      rcases List.mem_cons.mp hm with rfl | hmem
      · have hpres : getBranchIfTracked st'.branches ref.name =
            getBranchIfTracked stm.branches ref.name := by
          refine pollRefs_ok_preserves matchFn reposDir r env rest stm st' ref.name hrest ?_
          intro ref' hm' hrem'
          exact (List.pairwise_cons.mp hdis).1 ref' hm' hrem hrem'
        exact processRef_ok_watermark matchFn reposDir r env st ref stm hp hrem b
          (hpres ▸ hb)
      · exact ih stm hrest (List.pairwise_cons.mp hdis).2 ref hmem hrem b hb
    | err e stm => simp [pollRefs, hp] at h
    | panic stm => simp [pollRefs, hp] at h

/-- A reference sweep over refs whose tracked branches all already
store the observed commits is a complete no-op. -/
theorem pollRefs_noop (matchFn : String → String → Bool) (reposDir : String)
    (r : Repo) (env : PollEnv) (refs : List GitRef) (st : PollState)
    (h : ∀ ref ∈ refs, ref.isRemote = true →
      ∀ b, getBranchIfTracked st.branches ref.name = some b → b.commit = ref.hash) :
    pollRefs matchFn reposDir r env st refs = .ok st := by
  induction refs with
  | nil => rfl
  | cons ref rest ih =>
    have hstep : processRef matchFn reposDir r env st ref = .ok st := by
      cases hrem : ref.isRemote with
      | false => simp [processRef, hrem]
      | true =>
        cases hlook : getBranchIfTracked st.branches ref.name with
        | none => simp [processRef, hrem, hlook]
        | some b =>
          have heq := h ref (List.mem_cons_self _ _) hrem b hlook
          have hbne : (b.commit != ref.hash) = false := by simp [heq]
          simp [processRef, hrem, hlook, hbne]
    rw [pollRefs, hstep]
    exact ih (fun ref' hm => h ref' (List.mem_cons_of_mem _ hm))

/-- Claim C8: a tracked observation whose commit equals the stored
watermark is a no-op (no diff, no notification, no state change), and
consequently a second poll with the same remote refs (whose remote
branch names are pairwise distinct, as git reference names are)
publishes zero notifications. -/
theorem c8_second_poll_publishes_nothing (matchFn : String → String → Bool)
    (reposDir cwd0 cwd1 : String) (r : Repo) (env env2 : PollEnv)
    (refs : List GitRef) (st1 : PollState)
    (hopen : r.gitRepoOpen = true)
    (hrefs : env.refsResult = some refs)
    (hrefs2 : env2.refsResult = some refs)
    (hdis : refs.Pairwise (fun a c => a.isRemote = true → c.isRemote = true →
      trimOriginName a.name ≠ trimOriginName c.name))
    (h1 : fetchAndLookForChanges matchFn reposDir cwd0 r env = .ok st1) :
    (∀ st ref b, getBranchIfTracked st.branches ref.name = some b →
       b.commit = ref.hash → processRef matchFn reposDir r env2 st ref = .ok st) ∧
    feedOf (fetchAndLookForChanges matchFn reposDir cwd1
        { r with branches := st1.branches } env2) = [] := by
  constructor
  · intro st ref b hlook heq
    cases hrem : ref.isRemote with
    | false => simp [processRef, hrem]
    | true =>
      have hbne : (b.commit != ref.hash) = false := by simp [heq]
      simp [processRef, hrem, hlook, hbne]
  · have hpoll : pollRefs matchFn reposDir r env
        ⟨r.branches, cwd0, [], true, false⟩ refs = .ok st1 := by
      cases hf : env.fetchResult with
      | err => simp [fetchAndLookForChanges, hopen, hf] at h1
      | ok => simpa [fetchAndLookForChanges, hopen, hf, hrefs] using h1
      | alreadyUpToDate => simpa [fetchAndLookForChanges, hopen, hf, hrefs] using h1
    have hmarks := pollRefs_ok_watermarks matchFn reposDir r env refs _ st1 hpoll hdis
    have hnoop : pollRefs matchFn reposDir { r with branches := st1.branches } env2
        ⟨st1.branches, cwd1, [], true, false⟩ refs =
          .ok ⟨st1.branches, cwd1, [], true, false⟩ :=
      pollRefs_noop _ _ _ _ _ _ (fun ref hm hrem b hb => hmarks ref hm hrem b hb)
    simp only [hopen] at hnoop
    cases hf2 : env2.fetchResult with
    | err => simp [fetchAndLookForChanges, hopen, hf2, feedOf]
    | ok => simp [fetchAndLookForChanges, hopen, hf2, hrefs2, hnoop, feedOf]
    | alreadyUpToDate => simp [fetchAndLookForChanges, hopen, hf2, hrefs2, hnoop, feedOf]

theorem c8_second_poll_witness :
    fetchAndLookForChanges (fun _ _ => true) "/repos" "/w"
        ⟨"demo", "u", [⟨"main", "aaaa1111", []⟩], true⟩
        ⟨.ok, some [⟨"origin/main", "bbbb2222", true⟩], true,
          fun _ _ => some [⟨"M", "src/app.go"⟩]⟩ =
      .ok ⟨[⟨"main", "bbbb2222", []⟩], "/w",
           [⟨"demo (aaaa1111 .. bbbb2222)",
             "Changes in demo (<a href=\"u\">u</a>)<br><br><b>aaaa1111</b><br>M - src/app.go<br><b>bbbb2222</b>",
             "u"⟩],
           true, true⟩ ∧
    feedOf (fetchAndLookForChanges (fun _ _ => true) "/repos" "/w2"
        ⟨"demo", "u", [⟨"main", "bbbb2222", []⟩], true⟩
        ⟨.ok, some [⟨"origin/main", "bbbb2222", true⟩], true,
          fun _ _ => some [⟨"M", "src/app.go"⟩]⟩) = [] := by
  refine ⟨by decide, ?_⟩
  have h := (c8_second_poll_publishes_nothing (fun _ _ => true) "/repos" "/w" "/w2"
    ⟨"demo", "u", [⟨"main", "aaaa1111", []⟩], true⟩
    ⟨.ok, some [⟨"origin/main", "bbbb2222", true⟩], true,
      fun _ _ => some [⟨"M", "src/app.go"⟩]⟩
    ⟨.ok, some [⟨"origin/main", "bbbb2222", true⟩], true,
      fun _ _ => some [⟨"M", "src/app.go"⟩]⟩
    [⟨"origin/main", "bbbb2222", true⟩]
    ⟨[⟨"main", "bbbb2222", []⟩], "/w",
     [⟨"demo (aaaa1111 .. bbbb2222)",
       "Changes in demo (<a href=\"u\">u</a>)<br><br><b>aaaa1111</b><br>M - src/app.go<br><b>bbbb2222</b>",
       "u"⟩],
     true, true⟩
    rfl rfl rfl (by simp) (by decide)).2
  simpa using h

/-- Claim C1 counterexample: with an on-disk mirror whose single remote
URL is `"https://old/repo.git"` while the config URL is
`"https://new/repo.git"`, `openOrInitGitRepo` deletes the mirror but
does NOT proceed as if no mirror existed: it performs no
initialization, no fetch, and does not return successfully — it
returns the URL-mismatch error. -/
theorem c1_url_mismatch_counterexample :
    openOrInitGitRepo
        ⟨"demo", "https://new/repo.git", [⟨"main", "", []⟩], false⟩
        ⟨.opened, some ["https://old/repo.git"], true, .ok,
          some [⟨"origin/main", "bbbb2222", true⟩]⟩ =
      .err .urlMismatch ⟨[⟨"main", "", []⟩], true, false, false, true⟩ ∧
    ¬ ∃ st, openOrInitGitRepo
        ⟨"demo", "https://new/repo.git", [⟨"main", "", []⟩], false⟩
        ⟨.opened, some ["https://old/repo.git"], true, .ok,
          some [⟨"origin/main", "bbbb2222", true⟩]⟩ = .ok st := by
  have heq : openOrInitGitRepo
      ⟨"demo", "https://new/repo.git", [⟨"main", "", []⟩], false⟩
      ⟨.opened, some ["https://old/repo.git"], true, .ok,
        some [⟨"origin/main", "bbbb2222", true⟩]⟩ =
      .err .urlMismatch ⟨[⟨"main", "", []⟩], true, false, false, true⟩ := by decide
  refine ⟨heq, ?_⟩
  rintro ⟨st, hst⟩
  rw [heq] at hst
  cases hst

/-- Claim C1 (amended): when the mirror opens but fails remote-identity
validation, `openOrInitGitRepo` does not fall through to initialization
in the same call.  With more than one remote, or with a single remote
whose URL differs from the config URL, it deletes the on-disk mirror
and returns the validation error, leaving re-initialization to a later
call (which will then find no mirror on disk); with zero remotes it
panics on the out-of-range access `remotes[0]` (no deletion, no error
return). -/
theorem c1_validation_failure_behaviour (r : Repo) (env : InitEnv)
    (remotes : List String)
    (ho : env.openResult = .opened)
    (hr : env.remotesResult = some remotes) :
    (1 < remotes.length →
       openOrInitGitRepo r env =
         .err .onlyOneRemoteExpected ⟨r.branches, true, false, false, true⟩) ∧
    (∀ u, remotes = [u] → r.url ≠ u →
       openOrInitGitRepo r env =
         .err .urlMismatch ⟨r.branches, true, false, false, true⟩) ∧
    (remotes = [] →
       openOrInitGitRepo r env = .panic ⟨r.branches, false, false, false, true⟩) := by
  refine ⟨?_, ?_, ?_⟩
  · intro hlen
    simp [openOrInitGitRepo, ho, hr, hlen]
  · rintro u rfl hne
    have hbne : (r.url != u) = true := by simp [bne_iff_ne, hne]
    simp [openOrInitGitRepo, ho, hr, hbne]
  · rintro rfl
    simp [openOrInitGitRepo, ho, hr]

theorem c1_validation_failure_witness :
    openOrInitGitRepo
        ⟨"demo", "https://new/repo.git", [⟨"main", "", []⟩], false⟩
        ⟨.opened, some ["https://old/repo.git"], false, .ok, none⟩ =
      .err .urlMismatch ⟨[⟨"main", "", []⟩], true, false, false, true⟩ :=
  (c1_validation_failure_behaviour
    ⟨"demo", "https://new/repo.git", [⟨"main", "", []⟩], false⟩
    ⟨.opened, some ["https://old/repo.git"], false, .ok, none⟩
    ["https://old/repo.git"] rfl rfl).2.1 "https://old/repo.git" rfl (by decide)

/-- Claim C3 (code bug): when the `git diff` subprocess fails, the
callback returns at line 198 before the `os.Chdir(wd)` of line 205
executes, so the process working directory after
`fetchAndLookForChanges` returns is the mirror's storage directory
(`"/repos/demo"`), not the directory in effect before the diff step
(`"/home/user"`) — the prior working directory is not restored on the
error exit path. -/
theorem c3_cwd_not_restored_on_diff_error :
    fetchAndLookForChanges (fun _ _ => false) "/repos" "/home/user"
        ⟨"demo", "u", [⟨"main", "aaaa1111", []⟩], true⟩
        ⟨.ok, some [⟨"origin/main", "bbbb2222", true⟩], true, fun _ _ => none⟩ =
      .err .diffFailed ⟨[⟨"main", "aaaa1111", []⟩], "/repos/demo", [], true, true⟩ ∧
    ("/repos/demo" : String) ≠ "/home/user" :=
  ⟨by decide, by decide⟩

/-- Claim C4 counterexample: in `openOrInitGitRepo`'s initialization
path the initial fetch result is checked only against nil (line 105),
so an "already up to date" outcome is propagated as an error rather
than treated as success. -/
theorem c4_uptodate_propagated_counterexample :
    openOrInitGitRepo ⟨"demo", "u", [⟨"main", "", []⟩], false⟩
        ⟨.notExists, none, true, .alreadyUpToDate, some []⟩ =
      .err .fetchAlreadyUpToDate ⟨[⟨"main", "", []⟩], false, true, true, true⟩ ∧
    ¬ ∃ st, openOrInitGitRepo ⟨"demo", "u", [⟨"main", "", []⟩], false⟩
        ⟨.notExists, none, true, .alreadyUpToDate, some []⟩ = .ok st := by
  have heq : openOrInitGitRepo ⟨"demo", "u", [⟨"main", "", []⟩], false⟩
      ⟨.notExists, none, true, .alreadyUpToDate, some []⟩ =
      .err .fetchAlreadyUpToDate ⟨[⟨"main", "", []⟩], false, true, true, true⟩ := by decide
  refine ⟨heq, ?_⟩
  rintro ⟨st, hst⟩
  rw [heq] at hst
  cases hst

/-- The reference callback reads only `getwdOk` and `diffResult` from
the environment. -/
theorem processRef_env_eq (matchFn : String → String → Bool) (reposDir : String)
    (r : Repo) (env env' : PollEnv) (st : PollState) (ref : GitRef)
    (hw : env.getwdOk = env'.getwdOk) (hd : env.diffResult = env'.diffResult) :
    processRef matchFn reposDir r env st ref = processRef matchFn reposDir r env' st ref := by
  simp [processRef, hw, hd]

/-- The reference sweep reads only `getwdOk` and `diffResult` from the
environment. -/
theorem pollRefs_env_eq (matchFn : String → String → Bool) (reposDir : String)
    (r : Repo) (env env' : PollEnv) (st : PollState) (refs : List GitRef)
    (hw : env.getwdOk = env'.getwdOk) (hd : env.diffResult = env'.diffResult) :
    pollRefs matchFn reposDir r env st refs = pollRefs matchFn reposDir r env' st refs := by
  induction refs generalizing st with
  | nil => rfl
  | cons ref rest ih =>
    rw [pollRefs, pollRefs, ← processRef_env_eq matchFn reposDir r env env' st ref hw hd]
    cases hcase : processRef matchFn reposDir r env st ref with
    | ok stm => exact ih stm
    | err e stm => rfl
    | panic stm => rfl

/-- Claim C4 (amended): in `fetchAndLookForChanges` an
"already up to date" fetch outcome is treated exactly like success and
any other fetch failure is propagated; but the initial fetch inside
`openOrInitGitRepo` propagates any non-nil outcome — including
"already up to date" — as an error. -/
theorem c4_fetch_error_handling (matchFn : String → String → Bool)
    (reposDir cwd0 : String) (r : Repo) (env : PollEnv) (enva : InitEnv)
    (hopen : r.gitRepoOpen = true)
    (hno : enva.openResult = .notExists)
    (hinit : enva.initOk = true) :
    (fetchAndLookForChanges matchFn reposDir cwd0 r
        { env with fetchResult := .alreadyUpToDate } =
       fetchAndLookForChanges matchFn reposDir cwd0 r { env with fetchResult := .ok }) ∧
    (env.fetchResult = .err →
       fetchAndLookForChanges matchFn reposDir cwd0 r env =
         .err .fetchFailed ⟨r.branches, cwd0, [], true, false⟩) ∧
    (enva.fetchResult = .alreadyUpToDate →
       openOrInitGitRepo r enva =
         .err .fetchAlreadyUpToDate ⟨r.branches, false, true, true, true⟩) := by
  refine ⟨?_, ?_, ?_⟩
  · cases hr : env.refsResult with
    | none => simp [fetchAndLookForChanges, hopen, hr]
    | some refs =>
      simp only [fetchAndLookForChanges, hopen, hr]
      simp
      exact pollRefs_env_eq matchFn reposDir r _ _ _ refs rfl rfl
  · intro hf
    simp [fetchAndLookForChanges, hopen, hf]
  · intro hf
    simp [openOrInitGitRepo, hno, hinit, hf]

theorem c4_fetch_error_handling_witness :
    fetchAndLookForChanges (fun _ _ => false) "/repos" "/w"
        ⟨"demo", "u", [⟨"main", "aaaa1111", []⟩], true⟩
        ⟨.alreadyUpToDate, some [], true, fun _ _ => none⟩ =
      fetchAndLookForChanges (fun _ _ => false) "/repos" "/w"
        ⟨"demo", "u", [⟨"main", "aaaa1111", []⟩], true⟩
        ⟨.ok, some [], true, fun _ _ => none⟩ ∧
    openOrInitGitRepo ⟨"demo", "u", [⟨"main", "aaaa1111", []⟩], false⟩
        ⟨.notExists, none, true, .alreadyUpToDate, some []⟩ =
      .err .fetchAlreadyUpToDate ⟨[⟨"main", "aaaa1111", []⟩], false, true, true, true⟩ := by
  have h := c4_fetch_error_handling (fun _ _ => false) "/repos" "/w"
    ⟨"demo", "u", [⟨"main", "aaaa1111", []⟩], true⟩
    ⟨.alreadyUpToDate, some [], true, fun _ _ => none⟩
    ⟨.notExists, none, true, .alreadyUpToDate, some []⟩
    rfl rfl rfl
  exact ⟨h.1, h.2.2 rfl⟩

end RepoWatcher
